import Mathlib

/-
  Verification of the BaseJsonLib JSON document model
  (RedfishPkg/Library/BaseJsonLib/BaseJsonLib.c).

  The library is a thin wrapper over an embedded jansson JSON engine; the
  jansson primitives (json_string, json_decref, json_object_set, ...) are not
  part of the wrapper file, so they are modelled from the specification of the
  document model (reference-counted tagged values in a heap).  The wrapper
  functions themselves (JsonValueInitAsciiString, JsonValueGetAsciiString,
  JsonToText, JsonObjectGetKeys, ...) are translated directly from the C source.

  Machine model: a JSON handle is either one of the static singletons
  (null / true / false, never allocated or freed) or a pointer into a heap of
  reference-counted nodes.  NULL C handles are `Option.none`.  C strings are
  lists of their content bytes (naturals).  EFI_STATUS results of the mutating
  operations are `EfiStatus`.
-/

namespace BaseJsonLib

/-- A JSON handle: one of the static singletons, or a pointer to a heap node. -/
inductive JRef where
  | jnull
  | jtrue
  | jfalse
  | ptr (addr : Nat)
deriving DecidableEq, Repr, Inhabited

/-- Payload of a heap-allocated JSON node. -/
inductive JPayload where
  | jint (n : Int)
  | jstr (bytes : List Nat)
  | jarr (elems : List JRef)
  | jobj (entries : List (List Nat × JRef))
deriving DecidableEq, Repr, Inhabited

/-- A heap node: payload plus reference count. -/
structure JNode where
  payload : JPayload
  refcount : Nat
deriving DecidableEq, Repr, Inhabited

/-- The handles held inside a container payload (one per slot). -/
def JPayload.childRefs : JPayload → List JRef
  | .jint _ => []
  | .jstr _ => []
  | .jarr es => es
  | .jobj kvs => kvs.map (fun e => e.2)

/-- Association-list lookup of a heap address. -/
def memLookup : List (Nat × JNode) → Nat → Option JNode
  | [], _ => none
  | q :: rest, a => if q.1 = a then some q.2 else memLookup rest a

/-- Replace the node stored at an address (all occurrences). -/
def memSet : List (Nat × JNode) → Nat → JNode → List (Nat × JNode)
  | [], _, _ => []
  | q :: rest, a, nd =>
    if q.1 = a then (a, nd) :: memSet rest a nd else q :: memSet rest a nd

/-- Drop the node stored at an address. -/
def memRemove : List (Nat × JNode) → Nat → List (Nat × JNode)
  | [], _ => []
  | q :: rest, a => if q.1 = a then memRemove rest a else q :: memRemove rest a

/-- The heap of allocated JSON nodes, with a fresh-address counter. -/
structure Heap where
  mem : List (Nat × JNode)
  next : Nat
deriving DecidableEq, Repr, Inhabited

def Heap.lookup (h : Heap) (a : Nat) : Option JNode := memLookup h.mem a

def Heap.setNode (h : Heap) (a : Nat) (nd : JNode) : Heap :=
  { h with mem := memSet h.mem a nd }

def Heap.remove (h : Heap) (a : Nat) : Heap :=
  { h with mem := memRemove h.mem a }

/-- Allocate a fresh node with refcount 1, returning its address. -/
def Heap.alloc (h : Heap) (pl : JPayload) : Heap × Nat :=
  ({ mem := (h.next, ⟨pl, 1⟩) :: h.mem, next := h.next + 1 }, h.next)

/-- Well-formedness: every allocated address is below the fresh counter. -/
def Heap.wf (h : Heap) : Prop := ∀ q ∈ h.mem, q.1 < h.next

/-- EFI_STATUS values returned by the mutating operations of BaseJsonLib.c. -/
inductive EfiStatus where
  | success
  | aborted
deriving DecidableEq, Repr, Inhabited

/-- Modelled from the spec: jansson json_incref (not under src/).
    Spec 4.1: retain(v) increments the refcount, a no-op for singletons. -/
def json_incref (h : Heap) (r : JRef) : Heap :=
  match r with
  | .ptr a =>
    match h.lookup a with
    | some nd => h.setNode a ⟨nd.payload, nd.refcount + 1⟩
    | none => h
  | _ => h

/-- Modelled from the spec: jansson json_decref (not under src/).
    Spec 4.1: release(v) decrements the refcount; on reaching zero, if the kind
    is Array or Object every contained reference is released recursively before
    the node's own storage is freed; singletons are never freed.  Recursion is
    bounded by explicit fuel (the spec excludes cyclic trees). -/
def json_decref : Nat → Heap → JRef → Heap
  | 0, h, _ => h
  | fuel + 1, h, r =>
    match r with
    | .ptr a =>
      match h.lookup a with
      | none => h
      | some nd =>
        if nd.refcount ≤ 1 then
          (nd.payload.childRefs).foldl (json_decref fuel) (h.remove a)
        else
          h.setNode a ⟨nd.payload, nd.refcount - 1⟩
    | _ => h

/-- Modelled from the spec: jansson json_string (not under src/).
    Spec 4.2: on success stores a private copy of the bytes, refcount 1. -/
def json_string (h : Heap) (bytes : List Nat) : Heap × Option JRef :=
  let r := h.alloc (.jstr bytes)
  (r.1, some (.ptr r.2))

/-- Modelled from the spec: jansson json_string_value (not under src/).
    Spec 4.2: a read-only view of the stored bytes of a string value;
    NULL for a NULL handle or a non-string value. -/
def json_string_value (h : Heap) (j : Option JRef) : Option (List Nat) :=
  match j with
  | some (.ptr a) =>
    match h.lookup a with
    | some nd =>
      match nd.payload with
      | .jstr bytes => some bytes
      | _ => none
    | none => none
  | _ => none

/-- Modelled from the spec: jansson json_integer_value (not under src/):
    the stored integer of an integer value, 0 otherwise. -/
def json_integer_value (h : Heap) (j : Option JRef) : Int :=
  match j with
  | some (.ptr a) =>
    match h.lookup a with
    | some nd =>
      match nd.payload with
      | .jint n => n
      | _ => 0
    | none => 0
  | _ => 0

/-- Modelled from the spec: jansson json_is_array macro (not under src/). -/
def json_is_array (h : Heap) (j : Option JRef) : Bool :=
  match j with
  | some (.ptr a) =>
    match h.lookup a with
    | some nd =>
      match nd.payload with
      | .jarr _ => true
      | _ => false
    | none => false
  | _ => false

/-- Modelled from the spec: jansson json_is_object macro (not under src/). -/
def json_is_object (h : Heap) (j : Option JRef) : Bool :=
  match j with
  | some (.ptr a) =>
    match h.lookup a with
    | some nd =>
      match nd.payload with
      | .jobj _ => true
      | _ => false
    | none => false
  | _ => false

/-- Modelled from the spec: jansson json_is_string macro (not under src/). -/
def json_is_string (h : Heap) (j : Option JRef) : Bool :=
  match j with
  | some (.ptr a) =>
    match h.lookup a with
    | some nd =>
      match nd.payload with
      | .jstr _ => true
      | _ => false
    | none => false
  | _ => false

/-- Modelled from the spec: jansson json_is_integer macro (not under src/). -/
def json_is_integer (h : Heap) (j : Option JRef) : Bool :=
  match j with
  | some (.ptr a) =>
    match h.lookup a with
    | some nd =>
      match nd.payload with
      | .jint _ => true
      | _ => false
    | none => false
  | _ => false

/-- Modelled from the spec: jansson json_is_boolean macro (not under src/):
    true exactly for the two boolean singletons. -/
def json_is_boolean (_h : Heap) (j : Option JRef) : Bool :=
  match j with
  | some .jtrue => true
  | some .jfalse => true
  | _ => false

/-- Modelled from the spec: jansson json_is_true macro (not under src/). -/
def json_is_true (_h : Heap) (j : Option JRef) : Bool :=
  match j with
  | some .jtrue => true
  | _ => false

/-- Modelled from the spec: jansson json_is_null macro (not under src/). -/
def json_is_null (_h : Heap) (j : Option JRef) : Bool :=
  match j with
  | some .jnull => true
  | _ => false

/-- Lookup of a key in an object's entry list (jansson hashtable_get). -/
def objFind (entries : List (List Nat × JRef)) (key : List Nat) : Option JRef :=
  match entries with
  | [] => none
  | e :: rest => if e.1 = key then some e.2 else objFind rest key

/-- Rebind a key in an object's entry list (all occurrences). -/
def objReplace (entries : List (List Nat × JRef)) (key : List Nat) (v : JRef) :
    List (List Nat × JRef) :=
  match entries with
  | [] => []
  | e :: rest =>
    if e.1 = key then (e.1, v) :: objReplace rest key v
    else e :: objReplace rest key v

/-- Modelled from the spec: jansson json_object_size (not under src/):
    number of entries of an object value, 0 otherwise. -/
def json_object_size (h : Heap) (o : Option JRef) : Nat :=
  match o with
  | some (.ptr a) =>
    match h.lookup a with
    | some nd =>
      match nd.payload with
      | .jobj entries => entries.length
      | _ => 0
    | none => 0
  | _ => 0

/-- Modelled from the spec: jansson json_array_size (not under src/):
    number of elements of an array value, 0 otherwise. -/
def json_array_size (h : Heap) (a : Option JRef) : Nat :=
  match a with
  | some (.ptr addr) =>
    match h.lookup addr with
    | some nd =>
      match nd.payload with
      | .jarr es => es.length
      | _ => 0
    | none => 0
  | _ => 0

/-- Modelled from the spec: jansson json_object_get (not under src/):
    the value bound to a key of an object value, NULL when the key is absent
    or the object handle invalid. -/
def json_object_get (h : Heap) (o : Option JRef) (key : Option (List Nat)) :
    Option JRef :=
  match o, key with
  | some (.ptr a), some k =>
    match h.lookup a with
    | some nd =>
      match nd.payload with
      | .jobj entries => objFind entries k
      | _ => none
    | none => none
  | _, _ => none

/-- Modelled from the spec: jansson json_object_set (not under src/).
    Spec 4.4: if the key exists, releases the old bound value's reference, binds
    the key to v and retains v; if the key does not exist, inserts a new binding
    and retains v.  Fails (nonzero, here false) if o is invalid, the key or
    value handle is NULL, or the underlying storage operation fails (storeOk);
    on failure the object is left unchanged (spec 7: no partial mutation). -/
def json_object_set (storeOk : Bool) (fuel : Nat) (h : Heap) (o : Option JRef)
    (key : Option (List Nat)) (v : Option JRef) : Heap × Bool :=
  match o, key, v with
  | some (.ptr a), some k, some vr =>
    match h.lookup a with
    | some nd =>
      match nd.payload with
      | .jobj entries =>
        if !storeOk then (h, false)
        else
          match objFind entries k with
          | some old =>
            let h1 := h.setNode a ⟨.jobj (objReplace entries k vr), nd.refcount⟩
            let h2 := json_incref h1 vr
            (json_decref fuel h2 old, true)
          | none =>
            let h1 := h.setNode a ⟨.jobj (entries ++ [(k, vr)]), nd.refcount⟩
            (json_incref h1 vr, true)
      | _ => (h, false)
    | none => (h, false)
  | _, _, _ => (h, false)

/-- Modelled from the spec: jansson json_array_append (not under src/).
    Spec 4.3: adds v at index count(a) and retains v; fails if a is not an
    array, the value handle is NULL, or the underlying allocation fails. -/
def json_array_append (storeOk : Bool) (h : Heap) (a : Option JRef)
    (v : Option JRef) : Heap × Bool :=
  match a, v with
  | some (.ptr addr), some vr =>
    match h.lookup addr with
    | some nd =>
      match nd.payload with
      | .jarr es =>
        if !storeOk then (h, false)
        else
          let h1 := h.setNode addr ⟨.jarr (es ++ [vr]), nd.refcount⟩
          (json_incref h1 vr, true)
      | _ => (h, false)
    | none => (h, false)
  | _, _ => (h, false)

/-- Modelled from the spec: jansson json_array_remove (not under src/).
    Spec 4.3: releases the reference held at index i, shifts all later elements
    down by one index, decrements the count; fails if i is out of range or a is
    not an array, and then nothing changes. -/
def json_array_remove (fuel : Nat) (h : Heap) (a : Option JRef) (i : Nat) :
    Heap × Bool :=
  match a with
  | some (.ptr addr) =>
    match h.lookup addr with
    | some nd =>
      match nd.payload with
      | .jarr es =>
        if hi : i < es.length then
          let old := es.get ⟨i, hi⟩
          let h1 := h.setNode addr ⟨.jarr (es.eraseIdx i), nd.refcount⟩
          (json_decref fuel h1 old, true)
        else (h, false)
      | _ => (h, false)
    | none => (h, false)
  | _ => (h, false)

/-- The entries iterated by the json_object_foreach macro: the entry list of an
    object value, empty for anything else. -/
def objEntries (h : Heap) (r : JRef) : List (List Nat × JRef) :=
  match r with
  | .ptr a =>
    match h.lookup a with
    | some nd =>
      match nd.payload with
      | .jobj entries => entries
      | _ => []
    | none => []
  | _ => []

/- ------------------------------------------------------------------
   Wrapper functions, translated from BaseJsonLib.c.
   ------------------------------------------------------------------ -/

/-- The byte scan shared by JsonValueInitAsciiString (lines 141-148) and
    JsonValueGetAsciiString (lines 483-490): walk the bytes of the C string and
    report failure at the first byte whose high bit (0x80) is set. -/
def asciiScanOk : List Nat → Bool
  | [] => true
  | b :: rest => if b &&& 0x80 ≠ 0 then false else asciiScanOk rest

/-- JsonValueInitAsciiString (BaseJsonLib.c lines 129-151): NULL input gives
    NULL; a byte with the high bit set before the terminator gives NULL;
    otherwise the string is handed to json_string. -/
def JsonValueInitAsciiString (h : Heap) (s : Option (List Nat)) :
    Heap × Option JRef :=
  match s with
  | none => (h, none)
  | some bytes =>
    if asciiScanOk bytes then json_string h bytes
    else (h, none)

/-- JsonValueGetAsciiString (BaseJsonLib.c lines 469-493): take the stored
    bytes via json_string_value (NULL for a non-string), then re-scan them,
    returning NULL at any byte with the high bit set. -/
def JsonValueGetAsciiString (h : Heap) (j : Option JRef) : Option (List Nat) :=
  match json_string_value h j with
  | none => none
  | some bytes =>
    if asciiScanOk bytes then some bytes
    else none

def JsonValueIsArray (h : Heap) (j : Option JRef) : Bool := json_is_array h j

def JsonValueIsObject (h : Heap) (j : Option JRef) : Bool := json_is_object h j

def JsonValueIsString (h : Heap) (j : Option JRef) : Bool := json_is_string h j

def JsonValueIsNumber (h : Heap) (j : Option JRef) : Bool := json_is_integer h j

def JsonValueIsBoolean (h : Heap) (j : Option JRef) : Bool := json_is_boolean h j

def JsonValueIsNull (h : Heap) (j : Option JRef) : Bool := json_is_null h j

/-- Result of JsonToText: either no text, or the text the external codec
    (json_dumps) produces for the given root. -/
inductive TextResult where
  | noText
  | codecText (root : JRef)
deriving DecidableEq, Repr, Inhabited

/-- JsonToText (BaseJsonLib.c lines 55-66): if the value is neither an array
    nor an object, return NULL; otherwise invoke json_dumps on it.  The codec
    is kept as an external collaborator: codecText r records that json_dumps
    runs on root r.  (A NULL handle never reaches the codec: both predicates
    reject it.) -/
def JsonToText (h : Heap) (json : Option JRef) : TextResult :=
  if !(JsonValueIsArray h json) && !(JsonValueIsObject h json) then .noText
  else
    match json with
    | some r => .codecText r
    | none => .noText

/-- JsonValueGetNumber (BaseJsonLib.c lines 540-552).  The first component
    records whether the debug-build ASSERT fires (input NULL or not a number);
    the second is the value returned in a release build. -/
def JsonValueGetNumber (h : Heap) (j : Option JRef) : Bool × Int :=
  let assertFired := !(j.isSome && JsonValueIsNumber h j)
  if j.isNone || !(JsonValueIsNumber h j) then (assertFired, 0)
  else (assertFired, json_integer_value h j)

/-- JsonValueGetBoolean (BaseJsonLib.c lines 565-577).  The first component
    records whether the debug-build ASSERT fires (input NULL or not a boolean);
    the second is the value returned in a release build. -/
def JsonValueGetBoolean (h : Heap) (j : Option JRef) : Bool × Bool :=
  let assertFired := !(j.isSome && JsonValueIsBoolean h j)
  if j.isNone || !(JsonValueIsBoolean h j) then (assertFired, false)
  else (assertFired, json_is_true h j)

/-- JsonValueFree (BaseJsonLib.c lines 269-276): json_decref on the handle. -/
def JsonValueFree (fuel : Nat) (h : Heap) (j : Option JRef) : Heap :=
  match j with
  | none => h
  | some r => json_decref fuel h r

/-- JsonObjectSize (BaseJsonLib.c lines 588-595). -/
def JsonObjectSize (h : Heap) (o : Option JRef) : Nat := json_object_size h o

/-- JsonArrayCount (BaseJsonLib.c lines 718-725). -/
def JsonArrayCount (h : Heap) (a : Option JRef) : Nat := json_array_size h a

/-- JsonObjectGetValue (BaseJsonLib.c lines 666-674): forwards to
    json_object_get. -/
def JsonObjectGetValue (h : Heap) (o : Option JRef) (key : Option (List Nat)) :
    Option JRef :=
  json_object_get h o key

/-- JsonObjectSetValue (BaseJsonLib.c lines 694-707): forwards to
    json_object_set; nonzero becomes EFI_ABORTED, zero EFI_SUCCESS. -/
def JsonObjectSetValue (storeOk : Bool) (fuel : Nat) (h : Heap)
    (o : Option JRef) (key : Option (List Nat)) (v : Option JRef) :
    Heap × EfiStatus :=
  let r := json_object_set storeOk fuel h o key v
  (r.1, if r.2 then .success else .aborted)

/-- JsonArrayAppendValue (BaseJsonLib.c lines 765-777): forwards to
    json_array_append; nonzero becomes EFI_ABORTED, zero EFI_SUCCESS. -/
def JsonArrayAppendValue (storeOk : Bool) (h : Heap) (a : Option JRef)
    (v : Option JRef) : Heap × EfiStatus :=
  let r := json_array_append storeOk h a v
  (r.1, if r.2 then .success else .aborted)

/-- JsonArrayRemoveValue (BaseJsonLib.c lines 793-805): forwards to
    json_array_remove; nonzero becomes EFI_ABORTED, zero EFI_SUCCESS. -/
def JsonArrayRemoveValue (fuel : Nat) (h : Heap) (a : Option JRef) (i : Nat) :
    Heap × EfiStatus :=
  let r := json_array_remove fuel h a i
  (r.1, if r.2 then .success else .aborted)

/-- JsonObjectGetKeys (BaseJsonLib.c lines 609-648).  keyCountValid models
    whether the KeyCount pointer is non-NULL, keyCountIn the cell's prior
    contents, allocOk whether AllocateZeroPool succeeds.  Returns the key array
    (or NULL) together with the final contents of the KeyCount cell: NULL
    handle, NULL KeyCount and an empty iteration all return before the cell is
    written; the cell is written as soon as the counting loop found at least
    one key, before the allocation that may still fail. -/
def JsonObjectGetKeys (h : Heap) (jsonObj : Option JRef) (keyCountValid : Bool)
    (keyCountIn : Nat) (allocOk : Bool) : Option (List (List Nat)) × Nat :=
  match jsonObj, keyCountValid with
  | none, _ => (none, keyCountIn)
  | some _, false => (none, keyCountIn)
  | some r, true =>
    let index := (objEntries h r).length
    if index = 0 then (none, keyCountIn)
    else if !allocOk then (none, index)
    else (some ((objEntries h r).map (fun e => e.1)), index)

/- ------------------------------------------------------------------
   Heap and helper lemmas.
   ------------------------------------------------------------------ -/

theorem memLookup_memSet_self (l : List (Nat × JNode)) (a : Nat) (nd nd0 : JNode)
    (hl : memLookup l a = some nd0) : memLookup (memSet l a nd) a = some nd := by
  induction l with
  | nil => simp [memLookup] at hl
  | cons q rest ih =>
    by_cases hq : q.1 = a
    · simp [memSet, memLookup, hq]
    · simp [memSet, memLookup, hq] at hl ⊢
      exact ih hl

theorem memLookup_memSet_ne (l : List (Nat × JNode)) (a b : Nat) (nd : JNode)
    (hne : b ≠ a) : memLookup (memSet l a nd) b = memLookup l b := by
  induction l with
  | nil => simp [memSet, memLookup]
  | cons q rest ih =>
    by_cases hq : q.1 = a
    · have : ¬(a = b) := fun hc => hne hc.symm
      simp [memSet, memLookup, hq, this, ih]
    · simp [memSet, memLookup, hq, ih]

theorem memLookup_memRemove_self (l : List (Nat × JNode)) (a : Nat) :
    memLookup (memRemove l a) a = none := by
  induction l with
  | nil => simp [memRemove, memLookup]
  | cons q rest ih =>
    by_cases hq : q.1 = a
    · simp [memRemove, hq, ih]
    · simp [memRemove, memLookup, hq, ih]

theorem memLookup_memRemove_ne (l : List (Nat × JNode)) (a b : Nat)
    (hne : b ≠ a) : memLookup (memRemove l a) b = memLookup l b := by
  induction l with
  | nil => simp [memRemove, memLookup]
  | cons q rest ih =>
    by_cases hq : q.1 = a
    · have hab : ¬(a = b) := fun hc => hne hc.symm
      simp [memRemove, memLookup, hq, hab, ih]
    · simp [memRemove, memLookup, hq, ih]

theorem memSet_not_mem (l : List (Nat × JNode)) (a : Nat) (nd : JNode)
    (hnm : ∀ q ∈ l, q.1 ≠ a) : memSet l a nd = l := by
  induction l with
  | nil => simp [memSet]
  | cons q rest ih =>
    have hq : q.1 ≠ a := hnm q (List.mem_cons_self q rest)
    simp [memSet, hq]
    exact ih fun p hp => hnm p (List.mem_cons_of_mem q hp)

theorem memRemove_not_mem (l : List (Nat × JNode)) (a : Nat)
    (hnm : ∀ q ∈ l, q.1 ≠ a) : memRemove l a = l := by
  induction l with
  | nil => simp [memRemove]
  | cons q rest ih =>
    have hq : q.1 ≠ a := hnm q (List.mem_cons_self q rest)
    simp [memRemove, hq]
    exact ih fun p hp => hnm p (List.mem_cons_of_mem q hp)

theorem memLookup_not_mem (l : List (Nat × JNode)) (a : Nat)
    (hnm : ∀ q ∈ l, q.1 ≠ a) : memLookup l a = none := by
  induction l with
  | nil => simp [memLookup]
  | cons q rest ih =>
    have hq : q.1 ≠ a := hnm q (List.mem_cons_self q rest)
    simp [memLookup, hq]
    exact ih fun p hp => hnm p (List.mem_cons_of_mem q hp)

theorem Heap.lookup_setNode_self (h : Heap) (a : Nat) (nd nd0 : JNode)
    (hl : h.lookup a = some nd0) : (h.setNode a nd).lookup a = some nd :=
  memLookup_memSet_self h.mem a nd nd0 hl

theorem Heap.lookup_setNode_ne (h : Heap) (a b : Nat) (nd : JNode)
    (hne : b ≠ a) : (h.setNode a nd).lookup b = h.lookup b :=
  memLookup_memSet_ne h.mem a b nd hne

theorem Heap.lookup_remove_self (h : Heap) (a : Nat) :
    (h.remove a).lookup a = none :=
  memLookup_memRemove_self h.mem a

theorem Heap.lookup_remove_ne (h : Heap) (a b : Nat) (hne : b ≠ a) :
    (h.remove a).lookup b = h.lookup b :=
  memLookup_memRemove_ne h.mem a b hne

theorem asciiScanOk_iff (l : List Nat) :
    asciiScanOk l = true ↔ ∀ b ∈ l, b &&& 0x80 = 0 := by
  induction l with
  | nil => simp [asciiScanOk]
  | cons b rest ih =>
    by_cases hb : b &&& 0x80 = 0
    · simp [asciiScanOk, hb, ih]
    · simp [asciiScanOk, hb]

theorem objReplace_keys (entries : List (List Nat × JRef)) (k : List Nat)
    (v : JRef) : (objReplace entries k v).map (fun e => e.1)
      = entries.map (fun e => e.1) := by
  induction entries with
  | nil => simp [objReplace]
  | cons e rest ih =>
    by_cases he : e.1 = k
    · simp [objReplace, he, ih]
    · simp [objReplace, he, ih]

theorem objReplace_length (entries : List (List Nat × JRef)) (k : List Nat)
    (v : JRef) : (objReplace entries k v).length = entries.length := by
  have := objReplace_keys entries k v
  have h1 := congrArg List.length this
  simpa using h1

theorem objFind_objReplace_self (entries : List (List Nat × JRef))
    (k : List Nat) (v : JRef) (old : JRef) (hf : objFind entries k = some old) :
    objFind (objReplace entries k v) k = some v := by
  induction entries with
  | nil => simp [objFind] at hf
  | cons e rest ih =>
    by_cases he : e.1 = k
    · simp [objReplace, objFind, he]
    · simp [objReplace, objFind, he] at hf ⊢
      exact ih hf

/- ------------------------------------------------------------------
   Claim theorems.
   ------------------------------------------------------------------ -/

/-- C1: for every NUL-terminated string s whose bytes all have the high bit
    clear, JsonValueInitAsciiString(s) yields a string value and
    JsonValueGetAsciiString on it returns a string equal to s. -/
theorem c1_ascii_string_roundtrip (h : Heap) (s : List Nat)
    (hs : ∀ b ∈ s, b &&& 0x80 = 0) :
    ∃ r : JRef,
      (JsonValueInitAsciiString h (some s)).2 = some r ∧
      JsonValueGetAsciiString (JsonValueInitAsciiString h (some s)).1 (some r)
        = some s := by
  have hscan : asciiScanOk s = true := (asciiScanOk_iff s).mpr hs
  refine ⟨.ptr h.next, ?_, ?_⟩ <;>
    simp [JsonValueInitAsciiString, hscan, json_string, Heap.alloc,
      JsonValueGetAsciiString, json_string_value, Heap.lookup, memLookup]

/-- C1 witness: round trip at the concrete string [104, 105]. -/
theorem c1_ascii_string_roundtrip_witness :
    ∃ r : JRef,
      (JsonValueInitAsciiString ⟨[], 0⟩ (some [104, 105])).2 = some r ∧
      JsonValueGetAsciiString (JsonValueInitAsciiString ⟨[], 0⟩
        (some [104, 105])).1 (some r) = some [104, 105] :=
  c1_ascii_string_roundtrip ⟨[], 0⟩ [104, 105] (by decide)

/-- C2: JsonValueInitAsciiString returns no value and creates nothing (the
    heap is unchanged) when the input is NULL or some byte before the NUL
    terminator has the high bit set. -/
theorem c2_init_rejects_nonascii (h : Heap) (s : Option (List Nat))
    (hbad : s = none ∨ ∃ l, s = some l ∧ ∃ b ∈ l, b &&& 0x80 ≠ 0) :
    JsonValueInitAsciiString h s = (h, none) := by
  rcases hbad with rfl | ⟨l, rfl, b, hb, hbit⟩
  · rfl
  · have hne : asciiScanOk l ≠ true :=
      fun hsc => hbit ((asciiScanOk_iff l).mp hsc b hb)
    have hf : asciiScanOk l = false := by
      cases hv : asciiScanOk l
      · rfl
      · exact absurd hv hne
    simp [JsonValueInitAsciiString, hf]

/-- C2 witness: NULL input and the concrete non-ASCII string [104, 200]. -/
theorem c2_init_rejects_nonascii_witness :
    JsonValueInitAsciiString ⟨[], 0⟩ none = (⟨[], 0⟩, none) ∧
    JsonValueInitAsciiString ⟨[], 0⟩ (some [104, 200]) = (⟨[], 0⟩, none) :=
  ⟨c2_init_rejects_nonascii ⟨[], 0⟩ none (Or.inl rfl),
   c2_init_rejects_nonascii ⟨[], 0⟩ (some [104, 200])
     (Or.inr ⟨[104, 200], rfl, 200, by decide, by decide⟩)⟩

/-- C3: for every string-kind value, JsonValueGetAsciiString returns absent
    when the stored bytes contain a byte with the high bit set, and returns
    exactly the stored bytes when every byte is 7-bit ASCII — depending only
    on the stored content, not on which constructor created the value. -/
theorem c3_get_ascii_content_based (h : Heap) (a : Nat) (bytes : List Nat)
    (rc : Nat) (hl : h.lookup a = some ⟨.jstr bytes, rc⟩) :
    ((∃ b ∈ bytes, b &&& 0x80 ≠ 0) →
        JsonValueGetAsciiString h (some (.ptr a)) = none) ∧
    ((∀ b ∈ bytes, b &&& 0x80 = 0) →
        JsonValueGetAsciiString h (some (.ptr a)) = some bytes) := by
  constructor
  · rintro ⟨b, hb, hbit⟩
    have hne : asciiScanOk bytes ≠ true :=
      fun hsc => hbit ((asciiScanOk_iff bytes).mp hsc b hb)
    have hf : asciiScanOk bytes = false := by
      cases hv : asciiScanOk bytes
      · rfl
      · exact absurd hv hne
    simp [JsonValueGetAsciiString, json_string_value, hl, hf]
  · intro hall
    have ht : asciiScanOk bytes = true := (asciiScanOk_iff bytes).mpr hall
    simp [JsonValueGetAsciiString, json_string_value, hl, ht]

/-- C3 witness: a stored non-ASCII string (as the Unicode constructor would
    leave behind) is rejected; a stored ASCII string is returned. -/
theorem c3_get_ascii_content_based_witness :
    JsonValueGetAsciiString ⟨[(0, ⟨.jstr [104, 200], 1⟩)], 1⟩
      (some (.ptr 0)) = none ∧
    JsonValueGetAsciiString ⟨[(1, ⟨.jstr [104, 105], 1⟩)], 2⟩
      (some (.ptr 1)) = some [104, 105] :=
  ⟨(c3_get_ascii_content_based ⟨[(0, ⟨.jstr [104, 200], 1⟩)], 1⟩ 0
      [104, 200] 1 (by decide)).1 ⟨200, by decide, by decide⟩,
   (c3_get_ascii_content_based ⟨[(1, ⟨.jstr [104, 105], 1⟩)], 2⟩ 1
      [104, 105] 1 (by decide)).2 (by decide)⟩

/-- C4: JsonToText produces no text for any root that is neither an array nor
    an object (NULL handles included) and never reaches the external codec for
    such a root; a codec invocation happens only for array or object roots. -/
theorem c4_serialize_root_kind (h : Heap) (j : Option JRef) :
    (JsonValueIsArray h j = false → JsonValueIsObject h j = false →
        JsonToText h j = .noText) ∧
    (∀ r : JRef, JsonToText h j = .codecText r →
        JsonValueIsArray h j = true ∨ JsonValueIsObject h j = true) := by
  constructor
  · intro ha ho
    simp [JsonToText, ha, ho]
  · intro r hr
    cases ha : JsonValueIsArray h j
    · cases ho : JsonValueIsObject h j
      · simp [JsonToText, ha, ho] at hr
      · exact Or.inr rfl
    · exact Or.inl rfl

/-- C4 witness: an integer root and a NULL root produce no text. -/
theorem c4_serialize_root_kind_witness :
    JsonToText ⟨[(0, ⟨.jint 5, 1⟩)], 1⟩ (some (.ptr 0)) = .noText ∧
    JsonToText ⟨[], 0⟩ none = .noText ∧
    JsonToText ⟨[], 0⟩ (some .jnull) = .noText :=
  ⟨(c4_serialize_root_kind ⟨[(0, ⟨.jint 5, 1⟩)], 1⟩ (some (.ptr 0))).1
      (by decide) (by decide),
   (c4_serialize_root_kind ⟨[], 0⟩ none).1 (by decide) (by decide),
   (c4_serialize_root_kind ⟨[], 0⟩ (some .jnull)).1 (by decide) (by decide)⟩

/-- C8: for a NULL handle or a non-matching kind the typed scalar getters
    trip their debug ASSERT (first component true) and return the defined
    defaults 0 / FALSE; for a matching-kind value they return the stored
    payload with the ASSERT passing. -/
theorem c8_scalar_getter_defaults (h : Heap) (j : Option JRef) (a : Nat)
    (n : Int) (rc : Nat) :
    ((j = none ∨ JsonValueIsNumber h j = false) →
        JsonValueGetNumber h j = (true, 0)) ∧
    ((j = none ∨ JsonValueIsBoolean h j = false) →
        JsonValueGetBoolean h j = (true, false)) ∧
    (h.lookup a = some ⟨.jint n, rc⟩ →
        JsonValueGetNumber h (some (.ptr a)) = (false, n)) ∧
    JsonValueGetBoolean h (some .jtrue) = (false, true) ∧
    JsonValueGetBoolean h (some .jfalse) = (false, false) := by
  refine ⟨?_, ?_, ?_, ?_, ?_⟩
  · rintro (rfl | hnum)
    · simp [JsonValueGetNumber]
    · cases j with
      | none => simp [JsonValueGetNumber]
      | some r => simp [JsonValueGetNumber, hnum]
  · rintro (rfl | hbool)
    · simp [JsonValueGetBoolean]
    · cases j with
      | none => simp [JsonValueGetBoolean]
      | some r => simp [JsonValueGetBoolean, hbool]
  · intro hl
    simp [JsonValueGetNumber, JsonValueIsNumber, json_is_integer, hl,
      json_integer_value]
  · simp [JsonValueGetBoolean, JsonValueIsBoolean, json_is_boolean,
      json_is_true]
  · simp [JsonValueGetBoolean, JsonValueIsBoolean, json_is_boolean,
      json_is_true]

/-- C8 witness: getters at a NULL handle, at a wrong-kind value and at
    matching-kind values. -/
theorem c8_scalar_getter_defaults_witness :
    JsonValueGetNumber ⟨[(0, ⟨.jint 42, 1⟩)], 1⟩ none = (true, 0) ∧
    JsonValueGetNumber ⟨[(0, ⟨.jint 42, 1⟩)], 1⟩ (some .jtrue) = (true, 0) ∧
    JsonValueGetBoolean ⟨[(0, ⟨.jint 42, 1⟩)], 1⟩ (some (.ptr 0))
      = (true, false) ∧
    JsonValueGetNumber ⟨[(0, ⟨.jint 42, 1⟩)], 1⟩ (some (.ptr 0))
      = (false, 42) ∧
    JsonValueGetBoolean ⟨[(0, ⟨.jint 42, 1⟩)], 1⟩ (some .jtrue)
      = (false, true) :=
  ⟨(c8_scalar_getter_defaults ⟨[(0, ⟨.jint 42, 1⟩)], 1⟩ none 0 42 1).1
      (Or.inl rfl),
   (c8_scalar_getter_defaults ⟨[(0, ⟨.jint 42, 1⟩)], 1⟩ (some .jtrue) 0 42
      1).1 (Or.inr (by decide)),
   (c8_scalar_getter_defaults ⟨[(0, ⟨.jint 42, 1⟩)], 1⟩ (some (.ptr 0)) 0 42
      1).2.1 (Or.inr (by decide)),
   (c8_scalar_getter_defaults ⟨[(0, ⟨.jint 42, 1⟩)], 1⟩ (some (.ptr 0)) 0 42
      1).2.2.1 (by decide),
   (c8_scalar_getter_defaults ⟨[(0, ⟨.jint 42, 1⟩)], 1⟩ (some .jtrue) 0 42
      1).2.2.2.1⟩

/-- C10: JsonObjectGetKeys returns NULL without touching the KeyCount cell
    when the object handle is NULL, the KeyCount pointer is NULL, or the
    iteration finds no entries; once at least one key has been counted the
    cell receives the key count, even when the subsequent allocation fails
    and NULL is returned. -/
theorem c10_get_keys_cell_writes (h : Heap) (jsonObj : Option JRef)
    (kcv : Bool) (kcIn : Nat) (allocOk : Bool) :
    (jsonObj = none →
        JsonObjectGetKeys h jsonObj kcv kcIn allocOk = (none, kcIn)) ∧
    (kcv = false →
        JsonObjectGetKeys h jsonObj kcv kcIn allocOk = (none, kcIn)) ∧
    (∀ r : JRef, jsonObj = some r → objEntries h r = [] →
        JsonObjectGetKeys h jsonObj kcv kcIn allocOk = (none, kcIn)) ∧
    (∀ r : JRef, jsonObj = some r → kcv = true → objEntries h r ≠ [] →
        (JsonObjectGetKeys h jsonObj kcv kcIn allocOk).2
          = (objEntries h r).length) ∧
    (∀ r : JRef, jsonObj = some r → kcv = true → objEntries h r ≠ [] →
        allocOk = false →
        JsonObjectGetKeys h jsonObj kcv kcIn allocOk
          = (none, (objEntries h r).length)) := by
  refine ⟨?_, ?_, ?_, ?_, ?_⟩
  · rintro rfl
    rfl
  · rintro rfl
    cases jsonObj <;> rfl
  · rintro r rfl hemp
    cases kcv
    · rfl
    · simp [JsonObjectGetKeys, hemp]
  · rintro r rfl rfl hne
    have hlen : (objEntries h r).length ≠ 0 := by
      simpa [List.length_eq_zero] using hne
    cases allocOk <;> simp [JsonObjectGetKeys, hlen]
  · rintro r rfl rfl hne rfl
    have hlen : (objEntries h r).length ≠ 0 := by
      simpa [List.length_eq_zero] using hne
    simp [JsonObjectGetKeys, hlen]

/-- C10 witness: NULL object, NULL KeyCount, empty object, and a one-entry
    object with a failing allocation. -/
theorem c10_get_keys_cell_writes_witness :
    JsonObjectGetKeys ⟨[(0, ⟨.jobj [([97], .jnull)], 1⟩)], 1⟩ none true 99
      true = (none, 99) ∧
    JsonObjectGetKeys ⟨[(0, ⟨.jobj [([97], .jnull)], 1⟩)], 1⟩
      (some (.ptr 0)) false 99 true = (none, 99) ∧
    JsonObjectGetKeys ⟨[(0, ⟨.jobj [], 1⟩)], 1⟩ (some (.ptr 0)) true 99 true
      = (none, 99) ∧
    JsonObjectGetKeys ⟨[(0, ⟨.jobj [([97], .jnull)], 1⟩)], 1⟩
      (some (.ptr 0)) true 99 false = (none, 1) :=
  ⟨(c10_get_keys_cell_writes ⟨[(0, ⟨.jobj [([97], .jnull)], 1⟩)], 1⟩ none
      true 99 true).1 rfl,
   (c10_get_keys_cell_writes ⟨[(0, ⟨.jobj [([97], .jnull)], 1⟩)], 1⟩
      (some (.ptr 0)) false 99 true).2.1 rfl,
   (c10_get_keys_cell_writes ⟨[(0, ⟨.jobj [], 1⟩)], 1⟩ (some (.ptr 0)) true
      99 true).2.2.1 (.ptr 0) rfl (by decide),
   (c10_get_keys_cell_writes ⟨[(0, ⟨.jobj [([97], .jnull)], 1⟩)], 1⟩
      (some (.ptr 0)) true 99 false).2.2.2.2 (.ptr 0) rfl rfl (by decide)
      rfl⟩

/-- Every failing branch of json_object_set returns the heap untouched. -/
theorem json_object_set_fail_frame (storeOk : Bool) (fuel : Nat) (h : Heap)
    (o : Option JRef) (key : Option (List Nat)) (v : Option JRef)
    (hfail : (json_object_set storeOk fuel h o key v).2 = false) :
    (json_object_set storeOk fuel h o key v).1 = h := by
  rcases o with _ | rr
  · rfl
  rcases key with _ | k
  · cases rr <;> rfl
  rcases v with _ | vr
  · cases rr <;> rfl
  cases rr with
  | jnull => rfl
  | jtrue => rfl
  | jfalse => rfl
  | ptr a =>
    cases hnd : h.lookup a with
    | none => simp [json_object_set, hnd]
    | some nd =>
      obtain ⟨pl, rc⟩ := nd
      cases pl with
      | jint n => simp [json_object_set, hnd]
      | jstr s => simp [json_object_set, hnd]
      | jarr es => simp [json_object_set, hnd]
      | jobj entries =>
        cases storeOk with
        | false => simp [json_object_set, hnd]
        | true =>
          cases hf : objFind entries k with
          | none => simp [json_object_set, hnd, hf] at hfail
          | some old => simp [json_object_set, hnd, hf] at hfail

/-- C5: when JsonObjectSetValue reports EFI_ABORTED the object is left
    unchanged — the whole heap is identical, so the key bindings read through
    JsonObjectGetValue and the size reported by JsonObjectSize are the same as
    before the call. -/
theorem c5_object_set_failure_frame (storeOk : Bool) (fuel : Nat) (h : Heap)
    (o : Option JRef) (key : Option (List Nat)) (v : Option JRef)
    (hfail : (JsonObjectSetValue storeOk fuel h o key v).2 = .aborted) :
    (JsonObjectSetValue storeOk fuel h o key v).1 = h ∧
    (∀ kq : Option (List Nat),
        JsonObjectGetValue (JsonObjectSetValue storeOk fuel h o key v).1 o kq
          = JsonObjectGetValue h o kq) ∧
    JsonObjectSize (JsonObjectSetValue storeOk fuel h o key v).1 o
      = JsonObjectSize h o := by
  have hsnd : (json_object_set storeOk fuel h o key v).2 = false := by
    cases hx : (json_object_set storeOk fuel h o key v).2
    · rfl
    · exfalso
      simp [JsonObjectSetValue, hx] at hfail
  have hfr : (json_object_set storeOk fuel h o key v).1 = h :=
    json_object_set_fail_frame storeOk fuel h o key v hsnd
  have h1 : (JsonObjectSetValue storeOk fuel h o key v).1 = h := by
    simpa [JsonObjectSetValue] using hfr
  exact ⟨h1, fun kq => by rw [h1], by rw [h1]⟩

/-- C5 witness: setting through a NULL object handle aborts and changes
    nothing. -/
theorem c5_object_set_failure_frame_witness :
    (JsonObjectSetValue true 1 ⟨[], 0⟩ none (some [97]) (some .jnull)).1
      = ⟨[], 0⟩ ∧
    JsonObjectSize (JsonObjectSetValue true 1 ⟨[], 0⟩ none (some [97])
      (some .jnull)).1 none = JsonObjectSize ⟨[], 0⟩ none :=
  ⟨(c5_object_set_failure_frame true 1 ⟨[], 0⟩ none (some [97])
      (some .jnull) (by decide)).1,
   (c5_object_set_failure_frame true 1 ⟨[], 0⟩ none (some [97])
      (some .jnull) (by decide)).2.2⟩

/-- C6: a successful JsonObjectSetValue on an existing key k replaces the
    binding of k with the new value, keeps the number of keys unchanged,
    retains the new value (refcount + 1) and releases the old value's
    reference (refcount - 1, the node being reclaimed when that reference was
    the last one). -/
theorem c6_object_set_overwrite (fuel : Nat) (h : Heap) (oa oldA va : Nat)
    (entries : List (List Nat × JRef)) (k : List Nat) (ro r : Nat)
    (opl vpl : JPayload) (vrc : Nat) (hres : Heap) (st : EfiStatus)
    (hobj : h.lookup oa = some ⟨.jobj entries, ro⟩)
    (hfind : objFind entries k = some (.ptr oldA))
    (hold : h.lookup oldA = some ⟨opl, r⟩)
    (hv : h.lookup va = some ⟨vpl, vrc⟩)
    (hne1 : oldA ≠ oa) (hne2 : va ≠ oa) (hne3 : va ≠ oldA)
    (hr1 : 1 ≤ r) (hcr : r = 1 → opl.childRefs = [])
    (hfuel : 1 ≤ fuel)
    (heq : JsonObjectSetValue true fuel h (some (.ptr oa)) (some k)
        (some (.ptr va)) = (hres, st)) :
    st = .success ∧
    hres.lookup oa = some ⟨.jobj (objReplace entries k (.ptr va)), ro⟩ ∧
    JsonObjectGetValue hres (some (.ptr oa)) (some k) = some (.ptr va) ∧
    JsonObjectSize hres (some (.ptr oa))
      = JsonObjectSize h (some (.ptr oa)) ∧
    hres.lookup va = some ⟨vpl, vrc + 1⟩ ∧
    (2 ≤ r → hres.lookup oldA = some ⟨opl, r - 1⟩) ∧
    (r = 1 → hres.lookup oldA = none) := by
  obtain ⟨f, rfl⟩ : ∃ f, fuel = f + 1 := ⟨fuel - 1, by omega⟩
  have hl1va : (h.setNode oa
      ⟨.jobj (objReplace entries k (.ptr va)), ro⟩).lookup va
        = some ⟨vpl, vrc⟩ := by
    rw [Heap.lookup_setNode_ne h oa va _ hne2]
    exact hv
  have hcomp : json_object_set true (f + 1) h (some (.ptr oa)) (some k)
      (some (.ptr va))
      = (json_decref (f + 1) ((h.setNode oa
          ⟨.jobj (objReplace entries k (.ptr va)), ro⟩).setNode va
          ⟨vpl, vrc + 1⟩) (.ptr oldA), true) := by
    simp [json_object_set, hobj, hfind, json_incref, hl1va]
  set h2 := (h.setNode oa
      ⟨.jobj (objReplace entries k (.ptr va)), ro⟩).setNode va
      ⟨vpl, vrc + 1⟩ with hh2
  have hl2oa : h2.lookup oa
      = some ⟨.jobj (objReplace entries k (.ptr va)), ro⟩ := by
    rw [hh2, Heap.lookup_setNode_ne _ va oa _ (Ne.symm hne2)]
    exact Heap.lookup_setNode_self h oa _ _ hobj
  have hl2va : h2.lookup va = some ⟨vpl, vrc + 1⟩ := by
    rw [hh2]
    exact Heap.lookup_setNode_self _ va _ _ hl1va
  have hl2old : h2.lookup oldA = some ⟨opl, r⟩ := by
    rw [hh2, Heap.lookup_setNode_ne _ va oldA _ (Ne.symm hne3),
      Heap.lookup_setNode_ne h oa oldA _ hne1]
    exact hold
  have heq2 : (json_decref (f + 1) h2 (.ptr oldA), EfiStatus.success)
      = (hres, st) := by
    simpa [JsonObjectSetValue, hcomp] using heq
  have hres_eq : hres = json_decref (f + 1) h2 (.ptr oldA) := by
    have := congrArg Prod.fst heq2
    simpa using this.symm
  have hst_eq : st = .success := by
    have := congrArg Prod.snd heq2
    simpa using this.symm
  subst hres_eq
  subst hst_eq
  by_cases hr2 : 2 ≤ r
  · have hnot : ¬(r ≤ 1) := by omega
    have hdec : json_decref (f + 1) h2 (.ptr oldA)
        = h2.setNode oldA ⟨opl, r - 1⟩ := by
      simp [json_decref, hl2old, hnot]
    rw [hdec]
    have hoa : (h2.setNode oldA ⟨opl, r - 1⟩).lookup oa
        = some ⟨.jobj (objReplace entries k (.ptr va)), ro⟩ := by
      rw [Heap.lookup_setNode_ne h2 oldA oa _ (Ne.symm hne1)]
      exact hl2oa
    refine ⟨rfl, hoa, ?_, ?_, ?_, ?_, ?_⟩
    · simp [JsonObjectGetValue, json_object_get, hoa,
        objFind_objReplace_self entries k (.ptr va) (.ptr oldA) hfind]
    · simp [JsonObjectSize, json_object_size, hoa, hobj, objReplace_length]
    · rw [Heap.lookup_setNode_ne h2 oldA va _ hne3]
      exact hl2va
    · intro _
      exact Heap.lookup_setNode_self h2 oldA _ _ hl2old
    · intro hc
      exact absurd hc (by omega)
  · have hre : r = 1 := by omega
    subst hre
    have hchild : opl.childRefs = [] := hcr rfl
    have hdec : json_decref (f + 1) h2 (.ptr oldA) = h2.remove oldA := by
      simp [json_decref, hl2old, hchild]
    rw [hdec]
    have hoa : (h2.remove oldA).lookup oa
        = some ⟨.jobj (objReplace entries k (.ptr va)), ro⟩ := by
      rw [Heap.lookup_remove_ne h2 oldA oa (Ne.symm hne1)]
      exact hl2oa
    refine ⟨rfl, hoa, ?_, ?_, ?_, ?_, ?_⟩
    · simp [JsonObjectGetValue, json_object_get, hoa,
        objFind_objReplace_self entries k (.ptr va) (.ptr oldA) hfind]
    · simp [JsonObjectSize, json_object_size, hoa, hobj, objReplace_length]
    · rw [Heap.lookup_remove_ne h2 oldA va hne3]
      exact hl2va
    · intro hc
      exact absurd hc (by omega)
    · intro _
      exact Heap.lookup_remove_self h2 oldA

/-- C6 witness: overwriting key "a" (byte 97) of the object at address 0,
    old integer value at address 1 (refcount 2), new string value at
    address 2. -/
theorem c6_object_set_overwrite_witness :
    EfiStatus.success = EfiStatus.success ∧
    Heap.lookup ⟨[(0, ⟨.jobj [([97], .ptr 2)], 1⟩), (1, ⟨.jint 1, 1⟩),
        (2, ⟨.jstr [120], 2⟩)], 3⟩ 0
      = some ⟨.jobj (objReplace [([97], .ptr 1)] [97] (.ptr 2)), 1⟩ ∧
    JsonObjectGetValue ⟨[(0, ⟨.jobj [([97], .ptr 2)], 1⟩), (1, ⟨.jint 1, 1⟩),
        (2, ⟨.jstr [120], 2⟩)], 3⟩ (some (.ptr 0)) (some [97])
      = some (.ptr 2) ∧
    JsonObjectSize ⟨[(0, ⟨.jobj [([97], .ptr 2)], 1⟩), (1, ⟨.jint 1, 1⟩),
        (2, ⟨.jstr [120], 2⟩)], 3⟩ (some (.ptr 0))
      = JsonObjectSize ⟨[(0, ⟨.jobj [([97], .ptr 1)], 1⟩), (1, ⟨.jint 1, 2⟩),
        (2, ⟨.jstr [120], 1⟩)], 3⟩ (some (.ptr 0)) ∧
    Heap.lookup ⟨[(0, ⟨.jobj [([97], .ptr 2)], 1⟩), (1, ⟨.jint 1, 1⟩),
        (2, ⟨.jstr [120], 2⟩)], 3⟩ 2 = some ⟨.jstr [120], 1 + 1⟩ ∧
    (2 ≤ 2 → Heap.lookup ⟨[(0, ⟨.jobj [([97], .ptr 2)], 1⟩),
        (1, ⟨.jint 1, 1⟩), (2, ⟨.jstr [120], 2⟩)], 3⟩ 1
      = some ⟨.jint 1, 2 - 1⟩) ∧
    ((2 : Nat) = 1 → Heap.lookup ⟨[(0, ⟨.jobj [([97], .ptr 2)], 1⟩),
        (1, ⟨.jint 1, 1⟩), (2, ⟨.jstr [120], 2⟩)], 3⟩ 1 = none) :=
  c6_object_set_overwrite 1
    ⟨[(0, ⟨.jobj [([97], .ptr 1)], 1⟩), (1, ⟨.jint 1, 2⟩),
      (2, ⟨.jstr [120], 1⟩)], 3⟩
    0 1 2 [([97], .ptr 1)] [97] 1 2 (.jint 1) (.jstr [120]) 1
    ⟨[(0, ⟨.jobj [([97], .ptr 2)], 1⟩), (1, ⟨.jint 1, 1⟩),
      (2, ⟨.jstr [120], 2⟩)], 3⟩ .success
    (by decide) (by decide) (by decide) (by decide) (by decide) (by decide)
    (by decide) (by decide) (fun hc => absurd hc (by decide)) (by decide)
    (by decide)

/-- C7: JsonArrayRemoveValue at an in-range index succeeds, releases the
    reference held at that index (refcount - 1, the node being reclaimed when
    that reference was the last one), closes the gap by erasing the index
    (every later element shifts down by one), and the count drops by 1; at an
    out-of-range index it reports EFI_ABORTED and the heap is unchanged. -/
theorem c7_array_remove_shift (fuel : Nat) (h : Heap) (aa ea : Nat)
    (es : List JRef) (ra : Nat) (i : Nat) (epl : JPayload) (r : Nat)
    (harr : h.lookup aa = some ⟨.jarr es, ra⟩) :
    (es.length ≤ i →
        JsonArrayRemoveValue fuel h (some (.ptr aa)) i = (h, .aborted)) ∧
    (∀ hi : i < es.length, es.get ⟨i, hi⟩ = .ptr ea → ea ≠ aa →
        h.lookup ea = some ⟨epl, r⟩ → 1 ≤ r → (r = 1 → epl.childRefs = []) →
        1 ≤ fuel →
        (JsonArrayRemoveValue fuel h (some (.ptr aa)) i).2 = .success ∧
        ((JsonArrayRemoveValue fuel h (some (.ptr aa)) i).1).lookup aa
            = some ⟨.jarr (es.eraseIdx i), ra⟩ ∧
        JsonArrayCount ((JsonArrayRemoveValue fuel h (some (.ptr aa)) i).1)
            (some (.ptr aa)) = es.length - 1 ∧
        (2 ≤ r →
            ((JsonArrayRemoveValue fuel h (some (.ptr aa)) i).1).lookup ea
              = some ⟨epl, r - 1⟩) ∧
        (r = 1 →
            ((JsonArrayRemoveValue fuel h (some (.ptr aa)) i).1).lookup ea
              = none)) := by
  constructor
  · intro hle
    have hnlt : ¬(i < es.length) := by omega
    simp [JsonArrayRemoveValue, json_array_remove, harr, hnlt]
  · intro hi hget hne hlea hr1 hcr hfuel
    obtain ⟨f, rfl⟩ : ∃ f, fuel = f + 1 := ⟨fuel - 1, by omega⟩
    have hget2 : es[i] = JRef.ptr ea := by
      rw [← hget]
      simp [List.get_eq_getElem]
    have hcomp : json_array_remove (f + 1) h (some (.ptr aa)) i
        = (json_decref (f + 1)
            (h.setNode aa ⟨.jarr (es.eraseIdx i), ra⟩) (.ptr ea), true) := by
      simp [json_array_remove, harr, hi, hget2]
    set h1 := h.setNode aa ⟨.jarr (es.eraseIdx i), ra⟩ with hh1
    have hl1aa : h1.lookup aa = some ⟨.jarr (es.eraseIdx i), ra⟩ := by
      rw [hh1]
      exact Heap.lookup_setNode_self h aa _ _ harr
    have hl1ea : h1.lookup ea = some ⟨epl, r⟩ := by
      rw [hh1, Heap.lookup_setNode_ne h aa ea _ hne]
      exact hlea
    have hlen : (es.eraseIdx i).length = es.length - 1 := by
      simp [List.length_eraseIdx, hi]
    by_cases hr2 : 2 ≤ r
    · have hnot : ¬(r ≤ 1) := by omega
      have hdec : json_decref (f + 1) h1 (.ptr ea)
          = h1.setNode ea ⟨epl, r - 1⟩ := by
        simp [json_decref, hl1ea, hnot]
      have haa : (h1.setNode ea ⟨epl, r - 1⟩).lookup aa
          = some ⟨.jarr (es.eraseIdx i), ra⟩ := by
        rw [Heap.lookup_setNode_ne h1 ea aa _ (Ne.symm hne)]
        exact hl1aa
      refine ⟨?_, ?_, ?_, ?_, ?_⟩
      · simp [JsonArrayRemoveValue, hcomp]
      · simp [JsonArrayRemoveValue, hcomp, hdec, haa]
      · simp [JsonArrayRemoveValue, hcomp, hdec, JsonArrayCount,
          json_array_size, haa, hlen]
      · intro _
        simp [JsonArrayRemoveValue, hcomp, hdec]
        exact Heap.lookup_setNode_self h1 ea _ _ hl1ea
      · intro hc
        exact absurd hc (by omega)
    · have hre : r = 1 := by omega
      subst hre
      have hchild : epl.childRefs = [] := hcr rfl
      have hdec : json_decref (f + 1) h1 (.ptr ea) = h1.remove ea := by
        simp [json_decref, hl1ea, hchild]
      have haa : (h1.remove ea).lookup aa
          = some ⟨.jarr (es.eraseIdx i), ra⟩ := by
        rw [Heap.lookup_remove_ne h1 ea aa (Ne.symm hne)]
        exact hl1aa
      refine ⟨?_, ?_, ?_, ?_, ?_⟩
      · simp [JsonArrayRemoveValue, hcomp]
      · simp [JsonArrayRemoveValue, hcomp, hdec, haa]
      · simp [JsonArrayRemoveValue, hcomp, hdec, JsonArrayCount,
          json_array_size, haa, hlen]
      · intro hc
        exact absurd hc (by omega)
      · intro _
        simp [JsonArrayRemoveValue, hcomp, hdec]
        exact Heap.lookup_remove_self h1 ea

/-- C7 witness: removing index 1 of the 3-element array [10, 20, 30] at
    address 0 yields [10, 30] with count 2 and releases the middle element;
    index 3 is out of range and aborts. -/
theorem c7_array_remove_shift_witness :
    JsonArrayRemoveValue 1
      ⟨[(0, ⟨.jarr [.ptr 1, .ptr 2, .ptr 3], 1⟩), (1, ⟨.jint 10, 2⟩),
        (2, ⟨.jint 20, 2⟩), (3, ⟨.jint 30, 2⟩)], 4⟩
      (some (.ptr 0)) 3
      = (⟨[(0, ⟨.jarr [.ptr 1, .ptr 2, .ptr 3], 1⟩), (1, ⟨.jint 10, 2⟩),
          (2, ⟨.jint 20, 2⟩), (3, ⟨.jint 30, 2⟩)], 4⟩, .aborted) ∧
    (JsonArrayRemoveValue 1
      ⟨[(0, ⟨.jarr [.ptr 1, .ptr 2, .ptr 3], 1⟩), (1, ⟨.jint 10, 2⟩),
        (2, ⟨.jint 20, 2⟩), (3, ⟨.jint 30, 2⟩)], 4⟩
      (some (.ptr 0)) 1).2 = .success ∧
    ((JsonArrayRemoveValue 1
      ⟨[(0, ⟨.jarr [.ptr 1, .ptr 2, .ptr 3], 1⟩), (1, ⟨.jint 10, 2⟩),
        (2, ⟨.jint 20, 2⟩), (3, ⟨.jint 30, 2⟩)], 4⟩
      (some (.ptr 0)) 1).1).lookup 0
      = some ⟨.jarr ([.ptr 1, .ptr 2, .ptr 3].eraseIdx 1), 1⟩ ∧
    JsonArrayCount ((JsonArrayRemoveValue 1
      ⟨[(0, ⟨.jarr [.ptr 1, .ptr 2, .ptr 3], 1⟩), (1, ⟨.jint 10, 2⟩),
        (2, ⟨.jint 20, 2⟩), (3, ⟨.jint 30, 2⟩)], 4⟩
      (some (.ptr 0)) 1).1) (some (.ptr 0)) = 3 - 1 ∧
    ((JsonArrayRemoveValue 1
      ⟨[(0, ⟨.jarr [.ptr 1, .ptr 2, .ptr 3], 1⟩), (1, ⟨.jint 10, 2⟩),
        (2, ⟨.jint 20, 2⟩), (3, ⟨.jint 30, 2⟩)], 4⟩
      (some (.ptr 0)) 1).1).lookup 2 = some ⟨.jint 20, 2 - 1⟩ := by
  have base := c7_array_remove_shift 1
    ⟨[(0, ⟨.jarr [.ptr 1, .ptr 2, .ptr 3], 1⟩), (1, ⟨.jint 10, 2⟩),
      (2, ⟨.jint 20, 2⟩), (3, ⟨.jint 30, 2⟩)], 4⟩
    0 2 [.ptr 1, .ptr 2, .ptr 3] 1 3 (.jint 20) 2 (by decide)
  have base2 := c7_array_remove_shift 1
    ⟨[(0, ⟨.jarr [.ptr 1, .ptr 2, .ptr 3], 1⟩), (1, ⟨.jint 10, 2⟩),
      (2, ⟨.jint 20, 2⟩), (3, ⟨.jint 30, 2⟩)], 4⟩
    0 2 [.ptr 1, .ptr 2, .ptr 3] 1 1 (.jint 20) 2 (by decide)
  have hin := base2.2 (by decide) (by decide) (by decide) (by decide)
    (by decide) (fun hc => absurd hc (by decide)) (by decide)
  exact ⟨base.1 (by decide), hin.1, hin.2.1, hin.2.2.1, hin.2.2.2.1 (by decide)⟩

/-- C9: allocating a fresh non-singleton value (refcount 1) and a fresh empty
    array, appending the value to the array raises its refcount to 2; then
    freeing the array (which releases the contained reference) and freeing the
    original handle reclaims the value's storage and returns the heap to
    exactly the allocations it held before — net zero outstanding
    allocations. -/
theorem c9_refcount_net_zero (h0 : Heap) (p : JPayload)
    (hwf : h0.wf) (hleaf : p.childRefs = [])
    (va : Nat) (h1 : Heap) (hv : h0.alloc p = (h1, va))
    (aa : Nat) (h2 : Heap) (ha : h1.alloc (.jarr []) = (h2, aa))
    (h3 : Heap) (st : EfiStatus)
    (happ : JsonArrayAppendValue true h2 (some (.ptr aa)) (some (.ptr va))
        = (h3, st)) :
    st = .success ∧
    h3.lookup va = some ⟨p, 2⟩ ∧
    (JsonValueFree 2 (JsonValueFree 2 h3 (some (.ptr aa)))
        (some (.ptr va))).lookup va = none ∧
    (JsonValueFree 2 (JsonValueFree 2 h3 (some (.ptr aa)))
        (some (.ptr va))).mem = h0.mem := by
  have hh1 : h1 = ⟨(h0.next, ⟨p, 1⟩) :: h0.mem, h0.next + 1⟩ := by
    have := congrArg Prod.fst hv
    simpa [Heap.alloc] using this.symm
  have hva : va = h0.next := by
    have := congrArg Prod.snd hv
    simpa [Heap.alloc] using this.symm
  subst hh1
  subst hva
  have hh2 : h2 = ⟨(h0.next + 1, ⟨.jarr [], 1⟩) :: (h0.next, ⟨p, 1⟩)
      :: h0.mem, h0.next + 2⟩ := by
    have := congrArg Prod.fst ha
    simpa [Heap.alloc] using this.symm
  have haa : aa = h0.next + 1 := by
    have := congrArg Prod.snd ha
    simpa [Heap.alloc] using this.symm
  subst hh2
  subst haa
  have hnm : ∀ q ∈ h0.mem, q.1 ≠ h0.next := fun q hq => Nat.ne_of_lt (hwf q hq)
  have hnm1 : ∀ q ∈ h0.mem, q.1 ≠ h0.next + 1 := fun q hq => by
    have := hwf q hq
    omega
  have hne : h0.next ≠ h0.next + 1 := by omega
  have hne1 : h0.next + 1 ≠ h0.next := by omega
  have e1 : ∀ nd, memSet h0.mem h0.next nd = h0.mem :=
    fun nd => memSet_not_mem h0.mem h0.next nd hnm
  have e2 : ∀ nd, memSet h0.mem (h0.next + 1) nd = h0.mem :=
    fun nd => memSet_not_mem h0.mem (h0.next + 1) nd hnm1
  have e3 : memRemove h0.mem h0.next = h0.mem := memRemove_not_mem _ _ hnm
  have e4 : memRemove h0.mem (h0.next + 1) = h0.mem := memRemove_not_mem _ _ hnm1
  have e5 : memLookup h0.mem h0.next = none := memLookup_not_mem _ _ hnm
  have happc : JsonArrayAppendValue true
      (⟨(h0.next + 1, ⟨.jarr [], 1⟩) :: (h0.next, ⟨p, 1⟩) :: h0.mem,
        h0.next + 2⟩ : Heap)
      (some (.ptr (h0.next + 1))) (some (.ptr h0.next))
      = (⟨(h0.next + 1, ⟨.jarr [.ptr h0.next], 1⟩) :: (h0.next, ⟨p, 2⟩)
          :: h0.mem, h0.next + 2⟩, .success) := by
    simp [JsonArrayAppendValue, json_array_append, json_incref, Heap.lookup,
      Heap.setNode, memLookup, memSet, hne, hne1, e1, e2]
  have hh3 : h3 = ⟨(h0.next + 1, ⟨.jarr [.ptr h0.next], 1⟩)
      :: (h0.next, ⟨p, 2⟩) :: h0.mem, h0.next + 2⟩ := by
    have := congrArg Prod.fst (happc.symm.trans happ)
    simpa using this.symm
  have hst : st = .success := by
    have := congrArg Prod.snd (happc.symm.trans happ)
    simpa using this.symm
  subst hh3
  subst hst
  have hfree1 : JsonValueFree 2
      (⟨(h0.next + 1, ⟨.jarr [.ptr h0.next], 1⟩) :: (h0.next, ⟨p, 2⟩)
        :: h0.mem, h0.next + 2⟩ : Heap) (some (.ptr (h0.next + 1)))
      = ⟨(h0.next, ⟨p, 1⟩) :: h0.mem, h0.next + 2⟩ := by
    simp [JsonValueFree, json_decref, Heap.lookup, Heap.remove, Heap.setNode,
      memLookup, memRemove, memSet, hne, hne1, e1, e3, e4,
      JPayload.childRefs]
  have hfree2 : JsonValueFree 2
      (⟨(h0.next, ⟨p, 1⟩) :: h0.mem, h0.next + 2⟩ : Heap)
      (some (.ptr h0.next))
      = ⟨h0.mem, h0.next + 2⟩ := by
    simp [JsonValueFree, json_decref, Heap.lookup, Heap.remove, memLookup,
      memRemove, hleaf, e3]
  refine ⟨rfl, ?_, ?_, ?_⟩
  · simp [Heap.lookup, memLookup, hne1]
  · rw [hfree1, hfree2]
    simpa [Heap.lookup] using e5
  · rw [hfree1, hfree2]

/-- C9 witness: the discipline at the concrete payload 7 starting from the
    empty heap. -/
theorem c9_refcount_net_zero_witness :
    EfiStatus.success = EfiStatus.success ∧
    Heap.lookup ⟨[(1, ⟨.jarr [.ptr 0], 1⟩), (0, ⟨.jint 7, 2⟩)], 2⟩ 0
      = some ⟨.jint 7, 2⟩ ∧
    (JsonValueFree 2 (JsonValueFree 2
        ⟨[(1, ⟨.jarr [.ptr 0], 1⟩), (0, ⟨.jint 7, 2⟩)], 2⟩
        (some (.ptr 1))) (some (.ptr 0))).lookup 0 = none ∧
    (JsonValueFree 2 (JsonValueFree 2
        ⟨[(1, ⟨.jarr [.ptr 0], 1⟩), (0, ⟨.jint 7, 2⟩)], 2⟩
        (some (.ptr 1))) (some (.ptr 0))).mem
      = Heap.mem ⟨[], 0⟩ :=
  c9_refcount_net_zero ⟨[], 0⟩ (.jint 7)
    (fun q hq => absurd hq (List.not_mem_nil q)) (by decide)
    0 ⟨[(0, ⟨.jint 7, 1⟩)], 1⟩ (by decide)
    1 ⟨[(1, ⟨.jarr [], 1⟩), (0, ⟨.jint 7, 1⟩)], 2⟩ (by decide)
    ⟨[(1, ⟨.jarr [.ptr 0], 1⟩), (0, ⟨.jint 7, 2⟩)], 2⟩ .success (by decide)

end BaseJsonLib
